import Mathlib

/-!
Verification of the noto-pdf-ts native-memory bridge and rendering pipeline.

The TypeScript sources are shallowly embedded as pure Lean functions.
Native (WASM) entry points are modelled by an `Engine` oracle supplying the
values the engine would return; every native call an operation performs is
recorded in an event trace (`NEvent`) so that claims about allocation,
release and call order can be stated.  JavaScript `number` values that the
code uses as sizes, counts or thresholds are modelled as `Int` (or `ℚ` for
page geometry), and byte buffers as `List Nat`.
-/

namespace NotoPdf

/-- Trace of the native calls performed by an operation, in call order.
Mirrors the entry points of the PDFium module interface (wasm-lite.ts). -/
inductive NEvent where
  | malloc (size : Int) (ret : Nat)
  | free (ptr : Nat)
  | heapWrite (addr : Nat) (bytes : List Nat)
  | heap32Write (wordIndex : Nat) (value : Nat)
  | loadMemDocument (dataPtr : Nat) (size : Int) (passwordPtr ret : Nat)
  | getLastError (ret : Nat)
  | initLibraryWithConfig (configPtr : Nat)
  | closeDocument (docPtr : Nat)
  | bitmapCreateEx (width height : Int) (format : Nat) (bufferPtr : Nat)
      (stride : Int) (ret : Nat)
  | bitmapFillRect (bitmap : Nat) (left top width height : Int) (color : Nat)
  | renderPageBitmap (bitmap pagePtr : Nat) (startX startY sizeX sizeY : Int)
      (rotate flags : Nat)
  | bitmapDestroy (bitmap : Nat)
  | textLoadPage (pagePtr ret : Nat)
  | textClosePage (textPagePtr : Nat)
  deriving Repr, DecidableEq

/-- Oracle for the native module: the values its entry points return.
`mallocFn` is indexed by the call number within one operation, so that
distinct allocations in one operation can receive distinct pointers. -/
structure Engine where
  mallocFn : Nat → Int → Nat
  loadMemDocumentFn : Nat → Int → Nat → Nat
  lastError : Nat
  pageWidth : ℚ
  pageHeight : ℚ
  bitmapCreateExFn : Int → Int → Nat → Nat → Int → Nat
  heapAfterRender : Nat → Nat
  textLoadPageFn : Nat → Nat
  countCharsFn : Nat → Int
  hasUnicodeMapErrorFn : Nat → Nat → Int

/-- The pointers passed to the allocator's `free` in an event trace,
in call order. -/
def freesOf (evs : List NEvent) : List Nat :=
  evs.filterMap fun e =>
    match e with
    | .free p => some p
    | _ => none

/-! UTF-8 encoding, as performed by `TextEncoder` (wasm-utils.ts). -/

/-- UTF-8 encoding of one scalar value. -/
def utf8EncodeChar (c : Char) : List Nat :=
  let n := c.toNat
  if n < 0x80 then [n]
  else if n < 0x800 then [0xC0 + n / 0x40, 0x80 + n % 0x40]
  else if n < 0x10000 then
    [0xE0 + n / 0x1000, 0x80 + (n / 0x40) % 0x40, 0x80 + n % 0x40]
  else
    [0xF0 + n / 0x40000, 0x80 + (n / 0x1000) % 0x40,
     0x80 + (n / 0x40) % 0x40, 0x80 + n % 0x40]

/-- UTF-8 encoding of a string (`encoder.encode(str)`). -/
def utf8Encode (s : String) : List Nat :=
  (s.toList.map utf8EncodeChar).flatten

/-- `lengthBytesUTF8` from wasm-utils.ts: byte length of the UTF-8 encoding,
excluding the null terminator. -/
def lengthBytesUTF8 (s : String) : Nat :=
  (utf8Encode s).length

/-- Result of `stringToUTF8`: the `(address, byte)` pairs written to the heap,
in write order, and the function's return value. -/
structure WriteResult where
  writes : List (Nat × Nat)
  ret : Int
  deriving Repr, DecidableEq

/-- `stringToUTF8` from wasm-utils.ts.  `bytesToWrite` is
`Math.min(bytes.length, maxBytes - 1)` (an `Int`: for `maxBytes = 0` it is
`-1`, and the content loop `for (i = 0; i < bytesToWrite; i++)` then runs
zero times); the null terminator is written only under `maxBytes > 0`. -/
def stringToUTF8 (str : String) (outPtr : Nat) (maxBytes : Int) : WriteResult :=
  let bytes := utf8Encode str
  let bytesToWrite : Int := min (bytes.length : Int) (maxBytes - 1)
  let contentWrites := (List.range bytesToWrite.toNat).map
    (fun i => (outPtr + i, bytes.getD i 0))
  let termWrites := if 0 < maxBytes then [(outPtr + bytesToWrite.toNat, 0)] else []
  { writes := contentWrites ++ termWrites, ret := bytesToWrite }

/-! Document loading (PDFiumLibrary.loadDocument, library.ts). -/

/-- Error message table of `PDFiumLibrary.createError` (library.ts). -/
def errorMessageFor (code : Nat) : Option String :=
  if code = 0 then some "Success"
  else if code = 1 then some "Unknown error"
  else if code = 2 then some "File not found or could not be opened"
  else if code = 3 then some "File not in PDF format or corrupted"
  else if code = 4 then some "Password required or incorrect password"
  else if code = 5 then some "Unsupported security scheme"
  else if code = 6 then some "Page not found or content error"
  else none

/-- `PDFiumLibrary.createError`: table lookup with a generic fallback. -/
def createError (code : Nat) : String :=
  match errorMessageFor code with
  | some m => m
  | none => "PDFium error: " ++ toString code

/-- Size passed to `malloc` for the password buffer:
`lengthBytesUTF8(password) + 1`. -/
def passwordBufBytes (p : String) : Nat := lengthBytesUTF8 p + 1

/-- Pointer returned by the first `malloc` of `loadDocument`
(the PDF data buffer). -/
def docDataPtr (e : Engine) (data : List Nat) : Nat :=
  e.mallocFn 0 (data.length : Int)

/-- The `passwordPtr` local of `loadDocument`: `0` unless a truthy (defined,
non-empty) password was supplied, in which case it is the second `malloc`
result. -/
def docPasswordPtr (e : Engine) (password : Option String) : Nat :=
  match password with
  | some p => if p != "" then e.mallocFn 1 ((passwordBufBytes p : Nat) : Int) else 0
  | none => 0

instance {ε α : Type} [DecidableEq ε] [DecidableEq α] : DecidableEq (Except ε α) :=
  fun x y =>
    match x, y with
    | .error a, .error b =>
      if h : a = b then isTrue (by rw [h]) else isFalse (by simp [h])
    | .ok a, .ok b =>
      if h : a = b then isTrue (by rw [h]) else isFalse (by simp [h])
    | .error _, .ok _ => isFalse (by simp)
    | .ok _, .error _ => isFalse (by simp)

/-- Outcome of `loadDocument`: either the error thrown, or the
`(documentPtr, dataPtr)` pair handed to the new `PDFiumDocument`. -/
structure LoadDocOutcome where
  result : Except String (Nat × Nat)
  events : List NEvent
  deriving Repr, DecidableEq

/-- `PDFiumLibrary.loadDocument` (library.ts): allocate and fill the data
buffer, optionally allocate and fill a null-terminated password buffer,
call `FPDF_LoadMemDocument`, free the password buffer if one was allocated,
then on a null document pointer free the data buffer, query
`FPDF_GetLastError` and throw `createError`; otherwise return both
pointers. -/
def loadDocument (e : Engine) (data : List Nat) (password : Option String) :
    LoadDocOutcome :=
  let dataPtr := docDataPtr e data
  let ev0 : List NEvent :=
    [.malloc (data.length : Int) dataPtr, .heapWrite dataPtr data]
  let passwordPtr := docPasswordPtr e password
  let ev1 : List NEvent :=
    match password with
    | some p =>
      if p != "" then
        [.malloc ((passwordBufBytes p : Nat) : Int) passwordPtr,
         .heapWrite passwordPtr
           ((stringToUTF8 p passwordPtr ((passwordBufBytes p : Nat) : Int)).writes.map
             Prod.snd)]
      else []
    | none => []
  let docPtr := e.loadMemDocumentFn dataPtr (data.length : Int) passwordPtr
  let ev2 : List NEvent := [.loadMemDocument dataPtr (data.length : Int) passwordPtr docPtr]
  let ev3 : List NEvent := if passwordPtr ≠ 0 then [.free passwordPtr] else []
  if docPtr = 0 then
    { result := .error (createError e.lastError)
      events := ev0 ++ ev1 ++ ev2 ++ ev3 ++ [.free dataPtr, .getLastError e.lastError] }
  else
    { result := .ok (docPtr, dataPtr)
      events := ev0 ++ ev1 ++ ev2 ++ ev3 }

/-! Library initialization (PDFiumLibrary.initLibraryConfig /
createFontPathsArray, library.ts). -/

/-- `PDFIUM_FONT_PATHS` from fonts.ts. -/
def pdfiumFontPaths : List String :=
  ["/fonts", "/usr/share/fonts", "/usr/share/X11/fonts/Type1",
   "/usr/share/X11/fonts/TTF", "/usr/local/share/fonts"]

/-- `CONFIG_SIZE` from `initLibraryConfig`: byte size of
FPDF_LIBRARY_CONFIG version 2. -/
def CONFIG_SIZE : Nat := 24

/-- Outcome of `initLibraryConfig`: the native-call trace, the pointers
recorded in `fontPathPtrs` for later release, and the two key pointers. -/
structure InitOutcome where
  events : List NEvent
  fontPathPtrs : List Nat
  configPtr : Nat
  fontPathsPtr : Nat
  deriving Repr, DecidableEq

/-- One iteration of the loop body of `createFontPathsArray` for path `i`:
allocate the string buffer, write the null-terminated UTF-8 path into it,
and store its pointer into slot `i` of the array. -/
def fontPathStep (e : Engine) (arrayPtr : Nat) (i : Nat) (path : String) :
    Nat × List NEvent :=
  let pathBytes := lengthBytesUTF8 path + 1
  let pathPtr := e.mallocFn (2 + i) ((pathBytes : Nat) : Int)
  (pathPtr,
   [.malloc ((pathBytes : Nat) : Int) pathPtr,
    .heapWrite pathPtr ((stringToUTF8 path pathPtr ((pathBytes : Nat) : Int)).writes.map
      Prod.snd),
    .heap32Write (arrayPtr / 4 + i) pathPtr])

/-- `createFontPathsArray` (library.ts): allocate `(n+1)` pointer slots,
fill one slot per path with a freshly allocated null-terminated string, and
null-terminate the array.  Returns the array pointer, the pointers pushed
onto `fontPathPtrs` (array first, then each string, in order), and the
native-call trace.  The source performs no null check on any `malloc`
result. -/
def createFontPathsArray (e : Engine) (paths : List String) :
    Nat × List Nat × List NEvent :=
  let arrayPtr := e.mallocFn 1 (((paths.length + 1) * 4 : Nat) : Int)
  let entries := (List.range paths.length).map
    (fun i => fontPathStep e arrayPtr i (paths.getD i ""))
  (arrayPtr, arrayPtr :: entries.map Prod.fst,
   [NEvent.malloc (((paths.length + 1) * 4 : Nat) : Int) arrayPtr]
     ++ (entries.map Prod.snd).flatten
     ++ [NEvent.heap32Write (arrayPtr / 4 + paths.length) 0])

/-- `initLibraryConfig` (library.ts): if already initialized, return with no
native calls; otherwise allocate the 24-byte config struct, zero-fill its
six words, write version 2 at word 0, build the font path array, store its
pointer at word 1, call `FPDF_InitLibraryWithConfig`, and free the config
struct.  The source performs no null check on the `malloc` result before
using the struct and invoking the engine. -/
def initLibraryConfig (e : Engine) (initialized : Bool) : InitOutcome :=
  if initialized then
    { events := [], fontPathPtrs := [], configPtr := 0, fontPathsPtr := 0 }
  else
    let configPtr := e.mallocFn 0 ((CONFIG_SIZE : Nat) : Int)
    let zeroFill := (List.range (CONFIG_SIZE / 4)).map
      (fun i => NEvent.heap32Write (configPtr / 4 + i) 0)
    let r := createFontPathsArray e pdfiumFontPaths
    let fontPathsPtr := r.1
    { events :=
        [NEvent.malloc ((CONFIG_SIZE : Nat) : Int) configPtr]
          ++ zeroFill
          ++ [NEvent.heap32Write (configPtr / 4) 2]
          ++ r.2.2
          ++ [NEvent.heap32Write (configPtr / 4 + 1) fontPathsPtr,
              NEvent.initLibraryWithConfig configPtr,
              NEvent.free configPtr]
      fontPathPtrs := r.2.1
      configPtr := configPtr
      fontPathsPtr := fontPathsPtr }

/-! Document destruction (PDFiumDocument.destroy, library.ts). -/

/-- The state held by a `PDFiumDocument`: its two owned pointers and the
`destroyed` flag. -/
structure DocState where
  docPtr : Nat
  dataPtr : Nat
  destroyed : Bool
  deriving Repr, DecidableEq

/-- `PDFiumDocument.destroy` (library.ts): if already destroyed, return
immediately with no native calls; otherwise set the flag, call
`FPDF_CloseDocument`, and free `dataPtr` when it is nonzero. -/
def destroyDocument (d : DocState) : DocState × List NEvent :=
  if d.destroyed then (d, [])
  else
    ({ d with destroyed := true },
     [NEvent.closeDocument d.docPtr]
       ++ (if d.dataPtr ≠ 0 then [NEvent.free d.dataPtr] else []))

/-! BGRA to RGBA conversion (convertBgraToRgba, pdf-document.ts). -/

/-- `convertBgraToRgba` (pdf-document.ts): for each 4-byte pixel, swap
bytes 0 and 2 and keep bytes 1 and 3.  The trailing clauses mirror the
JavaScript semantics on a trailing partial group: out-of-range reads give
`undefined` (stored as 0) and out-of-range writes are dropped. -/
def convertBgraToRgba : List Nat → List Nat
  | b :: g :: r :: a :: rest => r :: g :: b :: a :: convertBgraToRgba rest
  | [b, g, r] => [r, g, b]
  | [_b, g] => [0, g]
  | [_b] => [0]
  | [] => []

/-! Page rendering and the missing-glyph check
(PDFiumPage.render / PDFiumPage.checkMissingGlyphs, library.ts). -/

/-- Resolved render options (`scale ?? 1`, `ignoreMissingGlyphs ?? false`,
`missingGlyphThreshold ?? 0` already applied).  The threshold is a
JavaScript `number`, modelled as `Int`. -/
structure RenderOpts where
  scale : ℚ
  ignoreMissingGlyphs : Bool
  missingGlyphThreshold : Int

/-- `RenderedImage` (library.ts): pixel bytes plus dimensions. -/
structure RenderedImage where
  data : List Nat
  width : Int
  height : Int
  deriving Repr, DecidableEq

/-- Outcome of `PDFiumPage.render`: the returned image or the thrown error
message, plus the native-call trace. -/
structure RenderOutcome where
  result : Except String RenderedImage
  events : List NEvent
  deriving Repr, DecidableEq

/-- Result of `checkMissingGlyphs` plus its native-call trace. -/
structure GlyphCheck where
  hasMissingGlyphs : Bool
  missingCount : Nat
  events : List NEvent
  deriving Repr, DecidableEq

/-- The loop of `checkMissingGlyphs`: the number of character indices
`0 <= i < charCount` for which `FPDFText_HasUnicodeMapError` returns 1.
A negative `charCount` (JavaScript `number`) yields zero iterations. -/
def missingGlyphCount (e : Engine) (textPagePtr : Nat) : Nat :=
  ((List.range (e.countCharsFn textPagePtr).toNat).filter
    (fun i => e.hasUnicodeMapErrorFn textPagePtr i == 1)).length

/-- `PDFiumPage.checkMissingGlyphs` (library.ts): load the text page; on a
null pointer report zero missing glyphs; otherwise count the mapping
errors and close the text page (the `finally` block runs on every exit
path of the `try`). -/
def checkMissingGlyphs (e : Engine) (pagePtr : Nat) : GlyphCheck :=
  let textPagePtr := e.textLoadPageFn pagePtr
  if textPagePtr = 0 then
    { hasMissingGlyphs := false, missingCount := 0
      events := [.textLoadPage pagePtr 0] }
  else
    let n := missingGlyphCount e textPagePtr
    { hasMissingGlyphs := decide (0 < n), missingCount := n
      events := [.textLoadPage pagePtr textPagePtr, .textClosePage textPagePtr] }

/-- Error message thrown by `render` when the missing-glyph check fails. -/
def missingGlyphMessage (n : Nat) : String :=
  "Missing glyphs detected: " ++ toString n ++ " character(s) could not be rendered"

/-- `PDFiumPage.render` (library.ts): compute `width = ceil(pageWidth *
scale)`, `height = ceil(pageHeight * scale)`, `stride = width * 4`,
`bufferSize = stride * height`; allocate the framebuffer, create the BGRA
bitmap, fill it with opaque white, render, copy `bufferSize` bytes out of a
fresh view of the heap, destroy the bitmap and free the framebuffer; then,
unless `ignoreMissingGlyphs`, run the glyph check and throw when
`hasMissingGlyphs && missingCount > missingGlyphThreshold`. -/
def render (e : Engine) (pagePtr : Nat) (opts : RenderOpts) : RenderOutcome :=
  let width : Int := ⌈e.pageWidth * opts.scale⌉
  let height : Int := ⌈e.pageHeight * opts.scale⌉
  let stride : Int := width * 4
  let bufferSize : Int := stride * height
  let bufferPtr := e.mallocFn 0 bufferSize
  let bitmap := e.bitmapCreateExFn width height 4 bufferPtr stride
  let data := (List.range bufferSize.toNat).map (fun i => e.heapAfterRender (bufferPtr + i))
  let ev1 : List NEvent :=
    [.malloc bufferSize bufferPtr,
     .bitmapCreateEx width height 4 bufferPtr stride bitmap,
     .bitmapFillRect bitmap 0 0 width height 0xffffffff,
     .renderPageBitmap bitmap pagePtr 0 0 width height 0 0,
     .bitmapDestroy bitmap,
     .free bufferPtr]
  if !opts.ignoreMissingGlyphs then
    let gc := checkMissingGlyphs e pagePtr
    if gc.hasMissingGlyphs && (gc.missingCount : Int) > opts.missingGlyphThreshold then
      { result := .error (missingGlyphMessage gc.missingCount)
        events := ev1 ++ gc.events }
    else
      { result := .ok ⟨data, width, height⟩, events := ev1 ++ gc.events }
  else
    { result := .ok ⟨data, width, height⟩, events := ev1 }

/-- The missing-glyph count of the claim: the loop count when the engine
produces a text view, and 0 when it cannot (`FPDFText_LoadPage` returns
null). -/
def missingCountSpec (e : Engine) (pagePtr : Nat) : Nat :=
  if e.textLoadPageFn pagePtr = 0 then 0
  else missingGlyphCount e (e.textLoadPageFn pagePtr)

/-! Font-embedding analysis (detectNonEmbeddedFonts, isBase14Font,
hasSubsetPrefix, pdf-document.ts).  The two regular expressions are
translated into explicit scanners over the latin1-decoded character
list. -/

/-- JavaScript regex class backslash-s, restricted to the code points a
latin1 decode can produce: TAB, LF, VT, FF, CR, space and NBSP (0xA0). -/
def jsSpace (c : Char) : Bool :=
  c == ' ' || c == Char.ofNat 9 || c == Char.ofNat 10 || c == Char.ofNat 11 ||
    c == Char.ofNat 12 || c == Char.ofNat 13 || c == Char.ofNat 160

/-- Match a literal character sequence at the head of the input, returning
the rest on success. -/
def stripLit : List Char → List Char → Option (List Char)
  | [], s => some s
  | _ :: _, [] => none
  | p :: ps, c :: cs => if p = c then stripLit ps cs else none

/-- Does the input start with the given literal? -/
def startsWithLit (lit s : List Char) : Bool :=
  (stripLit lit s).isSome

/-- The alternatives of the subtype pattern in `detectNonEmbeddedFonts`:
font subtypes that mandate embedding. -/
def subtypeAlternatives : List String :=
  ["CIDFontType0", "CIDFontType2", "TrueType", "Type0", "OpenType"]

/-- Does `/Subtype\s*\/(CIDFontType[02]|TrueType|Type0|OpenType)` match
starting exactly at the head of `s`? -/
def matchSubtypeHere (s : List Char) : Bool :=
  match stripLit "/Subtype".toList s with
  | none => false
  | some r1 =>
    match r1.dropWhile jsSpace with
    | '/' :: r3 => subtypeAlternatives.any (fun alt => startsWithLit alt.toList r3)
    | _ => false

/-- `requiresEmbeddingPattern.test(pdfString)`: does the subtype pattern
match anywhere in the text? -/
def hasEmbedMandatingSubtype (s : List Char) : Bool :=
  (List.range s.length).any (fun i => matchSubtypeHere (s.drop i))

/-- Character class of the captured group `[^\s/>]+` of the BaseFont
pattern. -/
def nameChar (c : Char) : Bool :=
  !(jsSpace c) && c != '/' && c != '>'

/-- Try to match `/BaseFont\s*\/([^\s/>]+)` starting exactly at the head of
`s`; on success return the captured name and the rest of the input after
the match. -/
def tryMatchBaseFont (s : List Char) : Option (List Char × List Char) :=
  match stripLit "/BaseFont".toList s with
  | none => none
  | some r1 =>
    match r1.dropWhile jsSpace with
    | '/' :: r3 =>
      let tok := r3.takeWhile nameChar
      if tok.isEmpty then none else some (tok, r3.dropWhile nameChar)
    | _ => none

/-- The repeated `baseFontPattern.exec` loop: find successive
non-overlapping matches left to right, collecting the captured group of
each.  A failed attempt advances by one character; a successful match
resumes right after its end.  One unit of fuel is spent per attempt and
every attempt consumes at least one character, so `s.length` fuel always
suffices and the fuel-exhausted branch agrees with the empty-input one. -/
def collectBaseFontsAux : Nat → List Char → List String
  | 0, _ => []
  | _ + 1, [] => []
  | fuel + 1, c :: rest =>
    match tryMatchBaseFont (c :: rest) with
    | some (tok, after) => String.mk tok :: collectBaseFontsAux fuel after
    | none => collectBaseFontsAux fuel rest

/-- All captured BaseFont name tokens of the text, in match order. -/
def collectBaseFonts (s : List Char) : List String :=
  collectBaseFontsAux s.length s

/-- `PDF_BASE_14_FONTS` (pdf-document.ts): the 14 standard font names. -/
def base14Fonts : List String :=
  ["Courier", "Courier-Bold", "Courier-BoldOblique", "Courier-Oblique",
   "Helvetica", "Helvetica-Bold", "Helvetica-BoldOblique", "Helvetica-Oblique",
   "Times-Roman", "Times-Bold", "Times-BoldItalic", "Times-Italic",
   "Symbol", "ZapfDingbats"]

/-- The anchored test `^[A-Z]{6}\+`: exactly six ASCII uppercase letters
followed by a plus sign (`hasSubsetPrefix` in pdf-document.ts). -/
def hasSubsetTag (name : String) : Bool :=
  let l := name.toList
  decide (7 ≤ l.length) && (l.take 6).all (fun c => 'A' ≤ c && c ≤ 'Z') &&
    l.getD 6 ' ' == '+'

/-- `isBase14Font` (pdf-document.ts): strip a leading subset tag if
present (`replace(^[A-Z]{6}\+, empty)`), then compare against the 14
standard names. -/
def isBase14Font (name : String) : Bool :=
  let clean := if hasSubsetTag name then String.mk (name.toList.drop 7) else name
  base14Fonts.contains clean

/-- Deduplication with first-occurrence order, as `[...new Set(list)]`. -/
def dedupFirstAux (seen : List String) : List String → List String
  | [] => []
  | x :: xs =>
    if seen.contains x then dedupFirstAux seen xs
    else x :: dedupFirstAux (x :: seen) xs

/-- Deduplication with first-occurrence order, as `[...new Set(list)]`. -/
def dedupFirst (l : List String) : List String :=
  dedupFirstAux [] l

/-- `new TextDecoder(latin1).decode(pdfData)`: one character per byte. -/
def latin1Decode (bytes : List Nat) : List Char :=
  bytes.map (fun b => Char.ofNat (b % 256))

/-- `detectNonEmbeddedFonts` (pdf-document.ts): decode the bytes as
latin1; if no embedding-mandating subtype tag occurs, return the empty
array immediately; otherwise collect every BaseFont name, drop those that
are Base-14 after prefix stripping or that carry a subset tag themselves,
and deduplicate. -/
def detectNonEmbeddedFonts (pdfData : List Nat) : List String :=
  let pdfString := latin1Decode pdfData
  if !(hasEmbedMandatingSubtype pdfString) then []
  else
    let allBaseFonts := collectBaseFonts pdfString
    let nonEmbeddedCandidates := allBaseFonts.filter
      (fun name => !(isBase14Font name || hasSubsetTag name))
    dedupFirst nonEmbeddedCandidates

/-- ASCII bytes of a string, for building concrete PDF byte fixtures. -/
def asciiBytes (s : String) : List Nat :=
  s.toList.map Char.toNat

/-! Archive extraction (extractFontFromZip, structured-walk variant). -/

/-- Byte of the buffer at an index, with 0 outside; inside the scan loop
every read is in bounds thanks to the loop guard. -/
def byteAt (zip : List Nat) (i : Nat) : Nat := zip.getD i 0

/-- `DataView.getUint16(i, true)`: two bytes, little endian. -/
def readU16 (zip : List Nat) (i : Nat) : Nat :=
  byteAt zip i + 256 * byteAt zip (i + 1)

/-- `DataView.getUint32(i, true)`: four bytes, little endian. -/
def readU32 (zip : List Nat) (i : Nat) : Nat :=
  byteAt zip i + 256 * byteAt zip (i + 1) + 65536 * byteAt zip (i + 2) +
    16777216 * byteAt zip (i + 3)

/-- `Uint8Array.subarray(start, stop)` with clamping semantics. -/
def sliceList (l : List Nat) (start stop : Nat) : List Nat :=
  (l.drop start).take (stop - start)

/-- `ZIP_LOCAL_FILE_HEADER_SIGNATURE`. -/
def ZIP_SIG : Nat := 0x04034b50

/-- The target entry suffix, as bytes: the decoded filename ends with this
ASCII string exactly when its byte sequence ends with these bytes. -/
def zipTargetName : List Nat := asciiBytes "NotoSansCJK-Regular.ttc"

/-- The two failure modes of the extractor. -/
inductive ZipError where
  | notFound
  | unsupportedCompression (method : Nat)
  deriving Repr, DecidableEq

/-- Filename bytes of the local-file-header entry that starts at `offset`. -/
def entryNameAt (zip : List Nat) (offset : Nat) : List Nat :=
  sliceList zip (offset + 30) (offset + 30 + readU16 zip (offset + 26))

/-- Compression-method field of the entry starting at `offset`. -/
def entryMethodAt (zip : List Nat) (offset : Nat) : Nat :=
  readU16 zip (offset + 8)

/-- Start of the data of the entry at `offset`: after the 30-byte header,
the filename and the extra field. -/
def entryDataStartAt (zip : List Nat) (offset : Nat) : Nat :=
  offset + 30 + readU16 zip (offset + 26) + readU16 zip (offset + 28)

/-- The compressed-size-many stored data bytes of the entry at `offset`. -/
def entryDataSliceAt (zip : List Nat) (offset : Nat) : List Nat :=
  sliceList zip (entryDataStartAt zip offset)
    (entryDataStartAt zip offset + readU32 zip (offset + 18))

/-- The `while` loop of `extractFontFromZip` (the structured-walk variant):
while `offset < zipData.length - 30`, read the 4-byte little-endian
signature at `offset` and stop scanning on a mismatch; otherwise read the
header fields, and if the filename ends with the target suffix return the
stored slice (method 0), its raw-deflate decompression (method 8, with the
decompressor as an oracle), or fail with the unsupported-compression
error; on a non-matching name jump to `dataStart + compressedSize`.
Falling out of the loop fails with not-found.  One unit of fuel is spent
per iteration and every iteration advances `offset` by at least 30, so the
`zip.length + 1` fuel supplied by `extractFontFromZip` is never exhausted;
the fuel-exhausted branch returns the same not-found failure as the loop
exit. -/
def extractLoop (inflate : List Nat → List Nat) (fuel : Nat) (zip : List Nat)
    (offset : Nat) : Except ZipError (List Nat) :=
  match fuel with
  | 0 => .error .notFound
  | fuel + 1 =>
    if offset + 30 < zip.length then
      if readU32 zip offset ≠ ZIP_SIG then .error .notFound
      else if zipTargetName.isSuffixOf (entryNameAt zip offset) then
        if entryMethodAt zip offset = 0 then .ok (entryDataSliceAt zip offset)
        else if entryMethodAt zip offset = 8 then
          .ok (inflate (entryDataSliceAt zip offset))
        else .error (.unsupportedCompression (entryMethodAt zip offset))
      else
        extractLoop inflate fuel zip
          (entryDataStartAt zip offset + readU32 zip (offset + 18))
    else .error .notFound

/-- `extractFontFromZip`: run the scan from offset 0. -/
def extractFontFromZip (inflate : List Nat → List Nat) (zip : List Nat) :
    Except ZipError (List Nat) :=
  extractLoop inflate (zip.length + 1) zip 0

/-! Concrete fixtures for witnesses and counterexamples. -/

/-- An engine whose load-memory-document entry point reports failure with
last-error code 3 (format error); distinct allocations get distinct
pointers. -/
def engLoadFail : Engine where
  mallocFn := fun i _ => 100 + i
  loadMemDocumentFn := fun _ _ _ => 0
  lastError := 3
  pageWidth := 1
  pageHeight := 1
  bitmapCreateExFn := fun _ _ _ _ _ => 2
  heapAfterRender := fun _ => 255
  textLoadPageFn := fun _ => 7
  countCharsFn := fun _ => 0
  hasUnicodeMapErrorFn := fun _ _ => 0

/-- An engine whose allocator is out of memory: every `malloc` returns the
null pointer. -/
def engZeroAlloc : Engine where
  mallocFn := fun _ _ => 0
  loadMemDocumentFn := fun _ _ _ => 0
  lastError := 0
  pageWidth := 1
  pageHeight := 1
  bitmapCreateExFn := fun _ _ _ _ _ => 0
  heapAfterRender := fun _ => 0
  textLoadPageFn := fun _ => 0
  countCharsFn := fun _ => 0
  hasUnicodeMapErrorFn := fun _ _ => 0

/-- A healthy engine for a 1x1-point page whose text view loads (pointer 7)
and reports zero characters, hence zero missing glyphs. -/
def engNoMissing : Engine where
  mallocFn := fun _ _ => 64
  loadMemDocumentFn := fun _ _ _ => 1
  lastError := 0
  pageWidth := 1
  pageHeight := 1
  bitmapCreateExFn := fun _ _ _ _ _ => 2
  heapAfterRender := fun _ => 255
  textLoadPageFn := fun _ => 7
  countCharsFn := fun _ => 0
  hasUnicodeMapErrorFn := fun _ _ => 0

/-- Like `engNoMissing` but with 3 characters of which two (indices 0 and
2) have a unicode-mapping error. -/
def engTwoMissing : Engine where
  mallocFn := fun _ _ => 64
  loadMemDocumentFn := fun _ _ _ => 1
  lastError := 0
  pageWidth := 1
  pageHeight := 1
  bitmapCreateExFn := fun _ _ _ _ _ => 2
  heapAfterRender := fun _ => 255
  textLoadPageFn := fun _ => 7
  countCharsFn := fun _ => 3
  hasUnicodeMapErrorFn := fun _ i => if i = 1 then 0 else 1

/-- Render options with a negative missing-glyph threshold (a legal
JavaScript number argument). -/
def optsNegThreshold : RenderOpts where
  scale := 1
  ignoreMissingGlyphs := false
  missingGlyphThreshold := -1

/-- Default-like render options: scale 1, check glyphs, threshold 0. -/
def optsCheckZero : RenderOpts where
  scale := 1
  ignoreMissingGlyphs := false
  missingGlyphThreshold := 0

/-- Bytes of a PDF fragment with a TrueType subtype tag and two BaseFont
names, one bare and one carrying a subset prefix. -/
def arialFixture : List Nat :=
  asciiBytes "/Subtype /TrueType /BaseFont /Arial /BaseFont /ABCDEF+Arial"

/-- A well-formed stored (method 0) local-file-header entry whose filename
is exactly the target name and whose data is the three bytes
`[0xAB, 0xCD, 0xEF]`. -/
def zipEntryStored : List Nat :=
  [0x50, 0x4B, 0x03, 0x04, 20, 0, 0, 0, 0, 0, 0, 0, 0, 0,
   0, 0, 0, 0, 3, 0, 0, 0, 3, 0, 0, 0, 23, 0, 0, 0] ++
    zipTargetName ++ [0xAB, 0xCD, 0xEF]

/-- An archive whose first four bytes are not the local-file-header
signature, followed by a perfectly valid matching entry. -/
def zipGarbageFirst : List Nat :=
  [0, 0, 0, 0] ++ zipEntryStored

/-- An identity stand-in for the raw-deflate decompressor oracle. -/
def inflateId : List Nat → List Nat := fun l => l

/-! Theorems. -/

/-- C10: for every string, output pointer and nonnegative byte budget,
`stringToUTF8` performs at most `maxBytes` heap writes, all of them inside
the region from `outPtr` (inclusive) to `outPtr + maxBytes` (exclusive);
when `maxBytes > 0` the last write is a null terminator placed right after
the content bytes, the returned value equals the number of content bytes
written, and it is at most `maxBytes - 1`: the string is truncated rather
than overrunning the given limit. -/
theorem stringToUTF8_truncates (str : String) (outPtr : Nat) (maxBytes : Int)
    (h : 0 ≤ maxBytes) :
    ((stringToUTF8 str outPtr maxBytes).writes.length : Int) ≤ maxBytes ∧
    (∀ w ∈ (stringToUTF8 str outPtr maxBytes).writes,
        outPtr ≤ w.1 ∧ (w.1 : Int) < (outPtr : Int) + maxBytes) ∧
    (0 < maxBytes →
      (stringToUTF8 str outPtr maxBytes).writes.getLast? =
        some (outPtr + (stringToUTF8 str outPtr maxBytes).ret.toNat, 0) ∧
      ((stringToUTF8 str outPtr maxBytes).writes.length : Int) =
        (stringToUTF8 str outPtr maxBytes).ret + 1 ∧
      (stringToUTF8 str outPtr maxBytes).ret ≤ maxBytes - 1) := by
  unfold stringToUTF8
  by_cases hpos : 0 < maxBytes
  · simp only [if_pos hpos]
    have hlen : (0 : Int) ≤ ((utf8Encode str).length : Int) := Int.natCast_nonneg _
    have h0 : 0 ≤ min ((utf8Encode str).length : Int) (maxBytes - 1) := by omega
    have hle : min ((utf8Encode str).length : Int) (maxBytes - 1) ≤ maxBytes - 1 := by
      omega
    have htn :
        ((min ((utf8Encode str).length : Int) (maxBytes - 1)).toNat : Int) =
          min ((utf8Encode str).length : Int) (maxBytes - 1) :=
      Int.toNat_of_nonneg h0
    refine ⟨?_, ?_, fun _ => ⟨?_, ?_, ?_⟩⟩
    · simp only [List.length_append, List.length_map, List.length_range,
        List.length_cons, List.length_nil]
      push_cast
      omega
    · intro w hw
      rcases List.mem_append.mp hw with hw | hw
      · rcases List.mem_map.mp hw with ⟨i, hi, rfl⟩
        have hi' := List.mem_range.mp hi
        constructor
        · omega
        · push_cast
          omega
      · simp only [List.mem_singleton] at hw
        subst hw
        constructor
        · omega
        · push_cast
          omega
    · exact List.getLast?_concat _
    · simp only [List.length_append, List.length_map, List.length_range,
        List.length_cons, List.length_nil]
      push_cast
      omega
    · exact hle
  · have hz : maxBytes = 0 := by omega
    subst hz
    have hmin : min ((utf8Encode str).length : Int) (0 - 1) = -1 := by
      have : (0 : Int) ≤ ((utf8Encode str).length : Int) := Int.natCast_nonneg _
      omega
    simp [hmin]
    intro a b x _ hx _ _
    omega

/-- Witness for C10 at the concrete input `"ab"`, pointer 10, budget 4. -/
theorem stringToUTF8_truncates_witness :
    ((stringToUTF8 "ab" 10 4).writes.length : Int) ≤ 4 ∧
    (∀ w ∈ (stringToUTF8 "ab" 10 4).writes,
        10 ≤ w.1 ∧ (w.1 : Int) < (10 : Int) + 4) ∧
    (0 < (4 : Int) →
      (stringToUTF8 "ab" 10 4).writes.getLast? =
        some (10 + (stringToUTF8 "ab" 10 4).ret.toNat, 0) ∧
      ((stringToUTF8 "ab" 10 4).writes.length : Int) =
        (stringToUTF8 "ab" 10 4).ret + 1 ∧
      (stringToUTF8 "ab" 10 4).ret ≤ 4 - 1) :=
  stringToUTF8_truncates "ab" 10 4 (by norm_num)

/-- C1: whenever the engine's load-memory-document entry point returns a
null document pointer, `loadDocument` fails with the error derived from
the engine's last-error code via `createError`, and its trace frees
exactly the native allocations the operation made: the password buffer
(when one was allocated for a supplied password) first — immediately after
the native call, hence regardless of outcome — and then the data buffer,
which therefore does not leak on this failure path. -/
theorem loadDocument_failure_frees (e : Engine) (data : List Nat)
    (password : Option String)
    (h : e.loadMemDocumentFn (docDataPtr e data) (data.length : Int)
      (docPasswordPtr e password) = 0) :
    (loadDocument e data password).result = .error (createError e.lastError) ∧
    freesOf (loadDocument e data password).events =
      (if docPasswordPtr e password ≠ 0 then [docPasswordPtr e password] else []) ++
        [docDataPtr e data] := by
  rcases password with _ | p
  · simp only [docPasswordPtr] at h ⊢
    simp [loadDocument, freesOf, docPasswordPtr, h]
  · by_cases hp : p != ""
    · simp only [docPasswordPtr, hp, if_true] at h ⊢
      by_cases hpw : e.mallocFn 1 ((passwordBufBytes p : Nat) : Int) = 0
      · rw [hpw] at h
        simp [loadDocument, freesOf, docPasswordPtr, h, hp, hpw]
      · simp [loadDocument, freesOf, docPasswordPtr, h, hp, hpw]
    · rw [Bool.not_eq_true] at hp
      simp only [docPasswordPtr, hp, if_false, Bool.false_eq_true] at h ⊢
      simp [loadDocument, freesOf, docPasswordPtr, h, hp]

/-- Witness for C1: a concrete engine whose loader fails with last-error 3
on a 2-byte document opened with password "pw"; both the password buffer
(pointer 101) and the data buffer (pointer 100) are freed, in that
order. -/
theorem loadDocument_failure_frees_witness :
    (loadDocument engLoadFail [37, 80] (some "pw")).result =
      .error "File not in PDF format or corrupted" ∧
    freesOf (loadDocument engLoadFail [37, 80] (some "pw")).events = [101, 100] := by
  have h := loadDocument_failure_frees engLoadFail [37, 80] (some "pw") rfl
  simpa [docPasswordPtr, docDataPtr, engLoadFail, createError, errorMessageFor] using h

/-- C2 counterexample: with an engine whose allocator returns the null
pointer for every request — in particular for the config struct, the path
array and every path-string buffer — initialization does not abort: the
engine's init-with-config entry point is still invoked (with the null
config pointer), refuting the claim that a null allocation aborts
initialization before that call. -/
theorem initLibraryConfig_null_proceeds_cex :
    engZeroAlloc.mallocFn 0 ((CONFIG_SIZE : Nat) : Int) = 0 ∧
    engZeroAlloc.mallocFn 1 (((pdfiumFontPaths.length + 1) * 4 : Nat) : Int) = 0 ∧
    NEvent.initLibraryWithConfig 0 ∈ (initLibraryConfig engZeroAlloc false).events := by
  refine ⟨rfl, rfl, ?_⟩
  decide

/-- C2 (amended): library initialization performs no null-pointer check on
any allocation: for every engine, a first (not-yet-initialized) run of
`initLibraryConfig` always reaches the engine's init-with-config entry
point, passing whatever pointer the allocator returned for the config
struct — even when that pointer, the path-array pointer or any path-string
pointer is null/zero. -/
theorem initLibraryConfig_always_invokes (e : Engine) :
    NEvent.initLibraryWithConfig (e.mallocFn 0 ((CONFIG_SIZE : Nat) : Int)) ∈
      (initLibraryConfig e false).events := by
  simp [initLibraryConfig, List.mem_append]

/-- C5: `destroy()` is idempotent.  On an open handle with a live data
pointer, the first call performs exactly one close-document call and one
free of the data pointer (each exactly once) and marks the handle closed;
calling destroy again on the resulting handle returns the same state and
performs no native call at all — in particular no second free of either
pointer. -/
theorem destroyDocument_idempotent (d : DocState) (h : d.destroyed = false)
    (h2 : d.dataPtr ≠ 0) :
    (destroyDocument d).2 = [NEvent.closeDocument d.docPtr, NEvent.free d.dataPtr] ∧
    (destroyDocument d).1.destroyed = true ∧
    destroyDocument (destroyDocument d).1 = ((destroyDocument d).1, []) := by
  refine ⟨by simp [destroyDocument, h, h2], by simp [destroyDocument, h], ?_⟩
  simp [destroyDocument, h]

/-- Witness for C5 on the concrete handle with document pointer 5 and data
pointer 7. -/
theorem destroyDocument_idempotent_witness :
    (destroyDocument ⟨5, 7, false⟩).2 =
      [NEvent.closeDocument (DocState.docPtr ⟨5, 7, false⟩),
       NEvent.free (DocState.dataPtr ⟨5, 7, false⟩)] ∧
    (destroyDocument ⟨5, 7, false⟩).1.destroyed = true ∧
    destroyDocument (destroyDocument ⟨5, 7, false⟩).1 =
      ((destroyDocument ⟨5, 7, false⟩).1, []) :=
  destroyDocument_idempotent ⟨5, 7, false⟩ rfl (by decide)

theorem getD_cons4 (p q r s : Nat) (t : List Nat) (n : Nat) :
    (p :: q :: r :: s :: t).getD (n + 4) 0 = t.getD n 0 := by
  show (p :: q :: r :: s :: t).getD (n + 1 + 1 + 1 + 1) 0 = t.getD n 0
  simp [List.getD_cons_succ]

theorem convertBgraToRgba_swap_at : ∀ (xs : List Nat) (i : Nat),
    4 * i + 3 < xs.length →
    (convertBgraToRgba xs).getD (4 * i) 0 = xs.getD (4 * i + 2) 0 ∧
    (convertBgraToRgba xs).getD (4 * i + 1) 0 = xs.getD (4 * i + 1) 0 ∧
    (convertBgraToRgba xs).getD (4 * i + 2) 0 = xs.getD (4 * i) 0 ∧
    (convertBgraToRgba xs).getD (4 * i + 3) 0 = xs.getD (4 * i + 3) 0
  | b :: g :: r :: a :: rest, 0, _ => by
    simp [convertBgraToRgba]
  | b :: g :: r :: a :: rest, i + 1, h => by
    have hlen : 4 * i + 3 < rest.length := by
      simp only [List.length_cons] at h
      omega
    have ih := convertBgraToRgba_swap_at rest i hlen
    have e0 : 4 * (i + 1) = 4 * i + 4 := by ring
    have e1 : 4 * (i + 1) + 1 = 4 * i + 1 + 4 := by ring
    have e2 : 4 * (i + 1) + 2 = 4 * i + 2 + 4 := by ring
    have e3 : 4 * (i + 1) + 3 = 4 * i + 3 + 4 := by ring
    simp only [convertBgraToRgba, e0, e1, e2, e3, getD_cons4]
    exact ih
  | [], _, h => absurd h (by simp)
  | [b], i, h => absurd h (by simp)
  | [b, g], i, h => absurd h (by simp)
  | [b, g, r], i, h => absurd h (by simp)

theorem convertBgraToRgba_length : ∀ xs : List Nat,
    (convertBgraToRgba xs).length = xs.length
  | [] => rfl
  | [_] => rfl
  | [_, _] => rfl
  | [_, _, _] => rfl
  | _ :: _ :: _ :: _ :: rest => by
    simp [convertBgraToRgba, convertBgraToRgba_length rest]

theorem convertBgraToRgba_involutive : ∀ xs : List Nat, xs.length % 4 = 0 →
    convertBgraToRgba (convertBgraToRgba xs) = xs
  | [], _ => rfl
  | b :: g :: r :: a :: rest, h => by
    have hr : rest.length % 4 = 0 := by
      simp only [List.length_cons] at h
      omega
    simp [convertBgraToRgba, convertBgraToRgba_involutive rest hr]
  | [x], h => absurd h (by simp)
  | [x, y], h => absurd h (by simp)
  | [x, y, z], h => absurd h (by simp)

/-- C6: on byte sequences whose length is a multiple of 4,
`convertBgraToRgba` swaps bytes 0 and 2 of every 4-byte pixel and leaves
bytes 1 and 3 of that pixel unchanged (also preserving the length), and it
is an involution: applying it twice yields the original sequence. -/
theorem convertBgraToRgba_spec (xs : List Nat) (h : xs.length % 4 = 0) :
    ((List.range (xs.length / 4)).all (fun i =>
      ((convertBgraToRgba xs).getD (4 * i) 0 == xs.getD (4 * i + 2) 0) &&
      ((convertBgraToRgba xs).getD (4 * i + 1) 0 == xs.getD (4 * i + 1) 0) &&
      ((convertBgraToRgba xs).getD (4 * i + 2) 0 == xs.getD (4 * i) 0) &&
      ((convertBgraToRgba xs).getD (4 * i + 3) 0 == xs.getD (4 * i + 3) 0)) = true) ∧
    (convertBgraToRgba xs).length = xs.length ∧
    convertBgraToRgba (convertBgraToRgba xs) = xs := by
  refine ⟨?_, convertBgraToRgba_length xs, convertBgraToRgba_involutive xs h⟩
  rw [List.all_eq_true]
  intro i hi
  have hi' : 4 * i + 3 < xs.length := by
    have := List.mem_range.mp hi
    omega
  have hs := convertBgraToRgba_swap_at xs i hi'
  simp only [Bool.and_eq_true, beq_iff_eq]
  exact ⟨⟨⟨hs.1, hs.2.1⟩, hs.2.2.1⟩, hs.2.2.2⟩

/-- Witness for C6 on the concrete two-pixel buffer
`[1, 2, 3, 4, 9, 8, 7, 6]`. -/
theorem convertBgraToRgba_spec_witness :
    ((List.range ([1, 2, 3, 4, 9, 8, 7, 6].length / 4)).all (fun i =>
      ((convertBgraToRgba [1, 2, 3, 4, 9, 8, 7, 6]).getD (4 * i) 0 ==
        [1, 2, 3, 4, 9, 8, 7, 6].getD (4 * i + 2) 0) &&
      ((convertBgraToRgba [1, 2, 3, 4, 9, 8, 7, 6]).getD (4 * i + 1) 0 ==
        [1, 2, 3, 4, 9, 8, 7, 6].getD (4 * i + 1) 0) &&
      ((convertBgraToRgba [1, 2, 3, 4, 9, 8, 7, 6]).getD (4 * i + 2) 0 ==
        [1, 2, 3, 4, 9, 8, 7, 6].getD (4 * i) 0) &&
      ((convertBgraToRgba [1, 2, 3, 4, 9, 8, 7, 6]).getD (4 * i + 3) 0 ==
        [1, 2, 3, 4, 9, 8, 7, 6].getD (4 * i + 3) 0)) = true) ∧
    (convertBgraToRgba [1, 2, 3, 4, 9, 8, 7, 6]).length =
      [1, 2, 3, 4, 9, 8, 7, 6].length ∧
    convertBgraToRgba (convertBgraToRgba [1, 2, 3, 4, 9, 8, 7, 6]) =
      [1, 2, 3, 4, 9, 8, 7, 6] :=
  convertBgraToRgba_spec [1, 2, 3, 4, 9, 8, 7, 6] (by decide)

/-- C3 counterexample: with a negative threshold (a legal JavaScript
number), a page whose text view loads and has zero missing glyphs, and
`ignoreMissingGlyphs = false`, the claim's condition
`missingCount > missingGlyphThreshold` holds (`0 > -1`), yet the render
call succeeds: the source additionally requires `hasMissingGlyphs`, i.e.
`missingCount > 0`. -/
theorem render_glyph_iff_cex :
    optsNegThreshold.ignoreMissingGlyphs = false ∧
    (missingCountSpec engNoMissing 9 : Int) > optsNegThreshold.missingGlyphThreshold ∧
    (render engNoMissing 9 optsNegThreshold).result =
      .ok ⟨[255, 255, 255, 255], 1, 1⟩ := by
  refine ⟨rfl, by decide, ?_⟩
  have hcW : (⌈engNoMissing.pageWidth * optsNegThreshold.scale⌉ : Int) = 1 := by
    norm_num [engNoMissing, optsNegThreshold]
  have hcH : (⌈engNoMissing.pageHeight * optsNegThreshold.scale⌉ : Int) = 1 := by
    norm_num [engNoMissing, optsNegThreshold]
  unfold render
  rw [hcW, hcH]
  decide

/-- C3 (amended): a render call fails with the missing-glyph error exactly
when `ignoreMissingGlyphs` is false, the missing count is positive, and it
exceeds the threshold (for nonnegative thresholds this is the claim as
stated); the missing count is the number of character indices at which the
engine's has-unicode-map-error predicate returns 1, taken to be 0 when the
engine cannot produce a text view; and the text view is released on every
exit path of the check. -/
theorem render_missing_glyph_iff (e : Engine) (pagePtr : Nat) (opts : RenderOpts) :
    ((render e pagePtr opts).result =
        .error (missingGlyphMessage (missingCountSpec e pagePtr)) ↔
      (opts.ignoreMissingGlyphs = false ∧ 0 < missingCountSpec e pagePtr ∧
        (missingCountSpec e pagePtr : Int) > opts.missingGlyphThreshold)) ∧
    (opts.ignoreMissingGlyphs = false → e.textLoadPageFn pagePtr ≠ 0 →
      NEvent.textClosePage (e.textLoadPageFn pagePtr) ∈
        (render e pagePtr opts).events) ∧
    (e.textLoadPageFn pagePtr = 0 → missingCountSpec e pagePtr = 0) := by
  refine ⟨?_, ?_, ?_⟩
  · cases hik : opts.ignoreMissingGlyphs with
    | true => simp [render, hik]
    | false =>
      by_cases ht : e.textLoadPageFn pagePtr = 0
      · simp [render, hik, checkMissingGlyphs, ht, missingCountSpec]
      · by_cases h1 : 0 < missingGlyphCount e (e.textLoadPageFn pagePtr)
        · by_cases h2 : (missingGlyphCount e (e.textLoadPageFn pagePtr) : Int) >
              opts.missingGlyphThreshold
          · simp [render, hik, checkMissingGlyphs, ht, missingCountSpec, h1, h2]
          · simp [render, hik, checkMissingGlyphs, ht, missingCountSpec, h1, h2]
        · simp [render, hik, checkMissingGlyphs, ht, missingCountSpec, h1]
  · intro hik ht
    simp only [render, hik, Bool.not_false, if_true]
    split <;> simp [checkMissingGlyphs, ht, List.mem_append]
  · intro ht
    simp [missingCountSpec, ht]

/-- Witness for C3 at a concrete engine with two missing glyphs out of
three characters, checked against threshold 0: the render call fails with
the missing-glyph error. -/
theorem render_missing_glyph_iff_witness :
    ((render engTwoMissing 9 optsCheckZero).result =
        .error (missingGlyphMessage (missingCountSpec engTwoMissing 9)) ↔
      (optsCheckZero.ignoreMissingGlyphs = false ∧
        0 < missingCountSpec engTwoMissing 9 ∧
        (missingCountSpec engTwoMissing 9 : Int) >
          optsCheckZero.missingGlyphThreshold)) ∧
    (optsCheckZero.ignoreMissingGlyphs = false →
      engTwoMissing.textLoadPageFn 9 ≠ 0 →
      NEvent.textClosePage (engTwoMissing.textLoadPageFn 9) ∈
        (render engTwoMissing 9 optsCheckZero).events) ∧
    (engTwoMissing.textLoadPageFn 9 = 0 → missingCountSpec engTwoMissing 9 = 0) :=
  render_missing_glyph_iff engTwoMissing 9 optsCheckZero

theorem toNat_mul_four (w h : Int) (hw : 0 ≤ w) (hh : 0 ≤ h) :
    (w * 4 * h).toNat = w.toNat * h.toNat * 4 := by
  rcases Int.eq_ofNat_of_zero_le hw with ⟨a, rfl⟩
  rcases Int.eq_ofNat_of_zero_le hh with ⟨b, rfl⟩
  rw [show ((a : Int) * 4 * b) = ((a * 4 * b : Nat) : Int) by push_cast; ring,
    Int.toNat_natCast, Int.toNat_natCast, Int.toNat_natCast]
  ring

/-- C7: whenever a render call returns an image, its width is
`ceil(pageWidth * scale)`, its height is `ceil(pageHeight * scale)`, and
its pixel byte sequence has length exactly `width * height * 4`
(nonnegative page dimensions and scale, matching real page geometry). -/
theorem render_image_dimensions (e : Engine) (pagePtr : Nat) (opts : RenderOpts)
    (img : RenderedImage)
    (hres : (render e pagePtr opts).result = .ok img)
    (hw : 0 ≤ e.pageWidth) (hh : 0 ≤ e.pageHeight) (hs : 0 ≤ opts.scale) :
    img.width = ⌈e.pageWidth * opts.scale⌉ ∧
    img.height = ⌈e.pageHeight * opts.scale⌉ ∧
    img.data.length = img.width.toNat * img.height.toNat * 4 := by
  have hw0 : (0 : Int) ≤ ⌈e.pageWidth * opts.scale⌉ :=
    Int.ceil_nonneg (mul_nonneg hw hs)
  have hh0 : (0 : Int) ≤ ⌈e.pageHeight * opts.scale⌉ :=
    Int.ceil_nonneg (mul_nonneg hh hs)
  unfold render at hres
  simp only [] at hres
  split at hres
  · split at hres
    · simp at hres
    · simp only [Except.ok.injEq] at hres
      subst hres
      refine ⟨rfl, rfl, ?_⟩
      simp [List.length_map, List.length_range, toNat_mul_four _ _ hw0 hh0]
  · simp only [Except.ok.injEq] at hres
    subst hres
    refine ⟨rfl, rfl, ?_⟩
    simp [List.length_map, List.length_range, toNat_mul_four _ _ hw0 hh0]

/-- Witness for C7: a concrete render on the 1x1-point page at scale 1,
with the glyph check passing, yields a 1x1 image with 4 pixel bytes. -/
theorem render_image_dimensions_witness :
    RenderedImage.width ⟨[255, 255, 255, 255], 1, 1⟩ =
      ⌈engNoMissing.pageWidth * optsCheckZero.scale⌉ ∧
    RenderedImage.height ⟨[255, 255, 255, 255], 1, 1⟩ =
      ⌈engNoMissing.pageHeight * optsCheckZero.scale⌉ ∧
    (RenderedImage.data ⟨[255, 255, 255, 255], 1, 1⟩).length =
      (RenderedImage.width ⟨[255, 255, 255, 255], 1, 1⟩).toNat *
        (RenderedImage.height ⟨[255, 255, 255, 255], 1, 1⟩).toNat * 4 :=
  render_image_dimensions engNoMissing 9 optsCheckZero ⟨[255, 255, 255, 255], 1, 1⟩
    (by
      have hcW : (⌈engNoMissing.pageWidth * optsCheckZero.scale⌉ : Int) = 1 := by
        norm_num [engNoMissing, optsCheckZero]
      have hcH : (⌈engNoMissing.pageHeight * optsCheckZero.scale⌉ : Int) = 1 := by
        norm_num [engNoMissing, optsCheckZero]
      unfold render
      rw [hcW, hcH]
      decide)
    (by norm_num [engNoMissing]) (by norm_num [engNoMissing])
    (by norm_num [optsCheckZero])

/-- C4: the analyzer returns the empty result whenever no
embedding-mandating subtype tag occurs in the latin1-decoded text, and
otherwise exactly the first-occurrence-deduplicated list of BaseFont name
tokens that are neither one of the 14 standard names after stripping a
six-uppercase-letter-plus-sign prefix nor themselves carrying such a subset
prefix.  In particular, on a fixture with a TrueType subtype tag, the bare
name "Arial" is reported while "ABCDEF+Arial" is excluded, and without any
subtype tag the same BaseFont yields the empty result. -/
theorem detectNonEmbeddedFonts_spec (pdfData : List Nat) :
    detectNonEmbeddedFonts pdfData =
      (if hasEmbedMandatingSubtype (latin1Decode pdfData) then
        dedupFirst ((collectBaseFonts (latin1Decode pdfData)).filter
          (fun name => !(isBase14Font name || hasSubsetTag name)))
      else []) ∧
    detectNonEmbeddedFonts arialFixture = ["Arial"] ∧
    detectNonEmbeddedFonts (asciiBytes "/BaseFont /Arial") = [] := by
  refine ⟨?_, by decide, by decide⟩
  by_cases hS : hasEmbedMandatingSubtype (latin1Decode pdfData) <;>
    simp [detectNonEmbeddedFonts, hS]

/-- C8: the archive scan starts at offset 0, and at any position where the
buffer is exhausted or the 4-byte little-endian word is not the
local-file-header signature, the scan fails with the not-found error —
so an entry located after the first non-header signature is never
returned. -/
theorem extract_stops_at_nonheader (inflate : List Nat → List Nat)
    (zip : List Nat) (offset fuel : Nat)
    (h : readU32 zip offset ≠ ZIP_SIG ∨ zip.length ≤ offset + 30) :
    extractLoop inflate (fuel + 1) zip offset = .error .notFound ∧
    extractFontFromZip inflate zip = extractLoop inflate (zip.length + 1) zip 0 := by
  refine ⟨?_, rfl⟩
  unfold extractLoop
  rcases h with h | h
  · by_cases hg : offset + 30 < zip.length
    · simp [hg, h]
    · simp [hg]
  · have hg : ¬(offset + 30 < zip.length) := by omega
    simp [hg]

/-- Witness for C8: an archive whose first four bytes are not the
signature, followed by a perfectly valid matching stored entry; the
extractor reports not-found and never returns that entry. -/
theorem extract_stops_at_nonheader_witness :
    (readU32 zipGarbageFirst 0 ≠ ZIP_SIG ∨ zipGarbageFirst.length ≤ 0 + 30) ∧
    extractLoop inflateId (zipGarbageFirst.length + 1) zipGarbageFirst 0 =
      .error .notFound ∧
    extractFontFromZip inflateId zipGarbageFirst = .error .notFound := by
  have h : readU32 zipGarbageFirst 0 ≠ ZIP_SIG ∨ zipGarbageFirst.length ≤ 0 + 30 :=
    Or.inl (by decide)
  have r := extract_stops_at_nonheader inflateId zipGarbageFirst 0
    zipGarbageFirst.length h
  exact ⟨h, r.1, by rw [r.2, r.1]⟩

/-- C9: when the scan reaches a valid local-file-header entry whose
filename ends with the target suffix, the result is decided by the
compression-method field: method 0 returns the compressed-size-many stored
bytes verbatim, method 8 returns the raw-deflate decompression (the
decompressor oracle applied to that slice), and any other method fails
with the unsupported-compression error. -/
theorem extract_entry_by_method (inflate : List Nat → List Nat) (zip : List Nat)
    (offset fuel : Nat)
    (h1 : offset + 30 < zip.length)
    (h2 : readU32 zip offset = ZIP_SIG)
    (h3 : zipTargetName.isSuffixOf (entryNameAt zip offset) = true) :
    extractLoop inflate (fuel + 1) zip offset =
      (if entryMethodAt zip offset = 0 then .ok (entryDataSliceAt zip offset)
       else if entryMethodAt zip offset = 8 then
         .ok (inflate (entryDataSliceAt zip offset))
       else .error (.unsupportedCompression (entryMethodAt zip offset))) := by
  unfold extractLoop
  simp [h1, h2, h3]

/-- Witness for C9: a concrete stored (method 0) entry whose data bytes are
`[0xAB, 0xCD, 0xEF]`; the extractor returns exactly those bytes. -/
theorem extract_entry_by_method_witness :
    extractLoop inflateId (zipEntryStored.length + 1) zipEntryStored 0 =
      (if entryMethodAt zipEntryStored 0 = 0 then
        .ok (entryDataSliceAt zipEntryStored 0)
       else if entryMethodAt zipEntryStored 0 = 8 then
         .ok (inflateId (entryDataSliceAt zipEntryStored 0))
       else .error (.unsupportedCompression (entryMethodAt zipEntryStored 0))) ∧
    extractFontFromZip inflateId zipEntryStored = .ok [0xAB, 0xCD, 0xEF] := by
  have r := extract_entry_by_method inflateId zipEntryStored 0 zipEntryStored.length
    (by decide) (by decide) (by decide)
  refine ⟨r, ?_⟩
  have he : extractFontFromZip inflateId zipEntryStored =
      extractLoop inflateId (zipEntryStored.length + 1) zipEntryStored 0 := rfl
  rw [he, r]
  decide

end NotoPdf
